import Mathlib

/-!
Verification of the geometry / ray-collision kernel of `src/lib/vectors.py`
(classes `Vector3`, `Plane`, `Triangle`, `Line`).

The kernel computes with IEEE-754 float64 values.  We embed those values as
`F := Option ℝ`: `some r` is the finite value `r` with exact real arithmetic,
`none` is NaN.  Every arithmetic operation propagates NaN exactly as IEEE
does, and every comparison involving NaN is false exactly as IEEE's ordered
comparisons are.  (Rounding and the infinities are outside this model: no
modelled code path produces an infinity — the only unguarded divisions in the
source divide a component by the vector's own norm, whose vanishing forces
the component to vanish, or divide by a dot product that was just tested
against zero, so a zero divisor only ever occurs with a `0` or NaN
numerator, which IEEE sends to NaN.)

Because per-operation rounding and underflow are not modelled, only
properties that are robust to them are settled here: the control flow and
sentinel contracts of the collision queries, which the program enforces by
its own comparisons on whatever values it computed, and concrete
evaluations whose float64 arithmetic is exact (dyadic inputs).  Properties
whose truth hinges on exact float equality of rounded results — exact plane
membership of `origin + vec1*a + vec2*b`, `norm` vanishing only on the zero
vector (squares can underflow), exact idempotence of normalization — are
out of this model's scope and are not stated.
-/

namespace Vectors

/-- A float64 value: a finite real, or NaN (`none`). -/
abbrev F : Type := Option ℝ

/-- Float addition: NaN-propagating exact addition. -/
def F.add : F → F → F
  | some a, some b => some (a + b)
  | _, _ => none

/-- Float subtraction. -/
def F.sub : F → F → F
  | some a, some b => some (a - b)
  | _, _ => none

/-- Float multiplication. -/
def F.mul : F → F → F
  | some a, some b => some (a * b)
  | _, _ => none

/-- Float division.  `0/0` is NaN, as in IEEE.  (IEEE sends `x/0` for
`x ≠ 0` to an infinity; no modelled code path reaches that case, see the
file comment.) -/
noncomputable def F.div : F → F → F
  | some a, some b => if b = 0 then none else some (a / b)
  | _, _ => none

/-- Float square root (`np.sqrt` inside `np.linalg.norm`): NaN on NaN and
on negative inputs. -/
noncomputable def F.sqrt : F → F
  | some a => if a < 0 then none else some (Real.sqrt a)
  | none => none

/-- The float comparison `a < b`: false whenever either side is NaN. -/
def F.Lt : F → F → Prop
  | some a, some b => a < b
  | _, _ => False

/-- The float comparison `a <= b`: false whenever either side is NaN. -/
def F.Le : F → F → Prop
  | some a, some b => a ≤ b
  | _, _ => False

/-- The float comparison `a >= b`: false whenever either side is NaN. -/
def F.Ge : F → F → Prop
  | some a, some b => b ≤ a
  | _, _ => False

/-- The float comparison `a == b`: false whenever either side is NaN
(in particular `NaN == NaN` is false). -/
def F.Eqv : F → F → Prop
  | some a, some b => a = b
  | _, _ => False

/-- Source: `Vector3` (src/lib/vectors.py:11): three float64 components. -/
structure Vector3 where
  x : F
  y : F
  z : F

/-- Source: `Vector3(x, y, z)` built from three finite floats. -/
def vec (a b c : ℝ) : Vector3 := ⟨some a, some b, some c⟩

/-- Source: `Vector3(math.nan, math.nan, math.nan)`, the no-hit sentinel of
`collide_triangles` (src/lib/vectors.py:218). -/
def nanV : Vector3 := ⟨none, none, none⟩

/-- Source: `__add__` (src/lib/vectors.py:66): componentwise addition. -/
def Vector3.add (v w : Vector3) : Vector3 :=
  ⟨F.add v.x w.x, F.add v.y w.y, F.add v.z w.z⟩

/-- Source: `__sub__` (src/lib/vectors.py:74): componentwise subtraction. -/
def Vector3.sub (v w : Vector3) : Vector3 :=
  ⟨F.sub v.x w.x, F.sub v.y w.y, F.sub v.z w.z⟩

/-- Source: `__mul__` (src/lib/vectors.py:70): scaling by a float. -/
def Vector3.smul (v : Vector3) (c : F) : Vector3 :=
  ⟨F.mul v.x c, F.mul v.y c, F.mul v.z c⟩

/-- Source: `dot` (src/lib/vectors.py:56): `np.vdot`, the sum of the componentwise
products. -/
def Vector3.dot (v w : Vector3) : F :=
  F.add (F.add (F.mul v.x w.x) (F.mul v.y w.y)) (F.mul v.z w.z)

/-- Source: `cross` (src/lib/vectors.py:52): `np.cross` of two 3-vectors. -/
def Vector3.cross (v w : Vector3) : Vector3 :=
  ⟨F.sub (F.mul v.y w.z) (F.mul v.z w.y),
   F.sub (F.mul v.z w.x) (F.mul v.x w.z),
   F.sub (F.mul v.x w.y) (F.mul v.y w.x)⟩

/-- Source: `norm` (src/lib/vectors.py:42): `np.linalg.norm`, the square root of the
sum of the squares of the components. -/
noncomputable def Vector3.norm (v : Vector3) : F :=
  F.sqrt (F.add (F.add (F.mul v.x v.x) (F.mul v.y v.y)) (F.mul v.z v.z))

/-- Source: `normalized` (src/lib/vectors.py:48), and the value left in place by the
in-place `normalize` (src/lib/vectors.py:45): every component divided by the
norm. -/
noncomputable def Vector3.normalized (v : Vector3) : Vector3 :=
  ⟨F.div v.x v.norm, F.div v.y v.norm, F.div v.z v.norm⟩

/-- Source: `is_zero` (src/lib/vectors.py:97): `not self.array.any()`, true exactly
when every component is the float `0.0` (a NaN component is truthy for
`np.any`, so a vector holding NaN is not zero). -/
def Vector3.is_zero (v : Vector3) : Prop :=
  v.x = some 0 ∧ v.y = some 0 ∧ v.z = some 0

/-- Source: `Plane` (src/lib/vectors.py:117): an origin, the two spanning vectors,
and the stored normal. -/
structure Plane where
  origin : Vector3
  vec1 : Vector3
  vec2 : Vector3
  normal : Vector3

/-- Source: `Plane.__init__` (src/lib/vectors.py:118): the normal is the cross
product of the two spanning vectors. -/
def Plane.make (origin v1 v2 : Vector3) : Plane :=
  ⟨origin, v1, v2, v1.cross v2⟩

/-- Source: `Plane.from_implicit` (src/lib/vectors.py:124): spanning vectors are a
zero dummy, the normal is given directly. -/
def Plane.from_implicit (origin normal : Vector3) : Plane :=
  ⟨origin, vec 0 0 0, vec 0 0 0, normal⟩

/-- Source: `point_is_on_plane` (src/lib/vectors.py:131):
`(vec - origin).dot(normal) == 0`. -/
def Plane.point_is_on_plane (p : Plane) (v : Vector3) : Prop :=
  F.Eqv ((v.sub p.origin).dot p.normal) (some 0)

/-- Source: `Plane.is_parallel` (src/lib/vectors.py:134): `normal.dot(vec) == 0`. -/
def Plane.is_parallel (p : Plane) (v : Vector3) : Prop :=
  F.Eqv (p.normal.dot v) (some 0)

/-- Source: `Triangle` (src/lib/vectors.py:160): the three vertices, the four
precomputed edge vectors, and the stored normal. -/
structure Triangle where
  origin : Vector3
  p2 : Vector3
  p3 : Vector3
  p1_to_p2 : Vector3
  p1_to_p3 : Vector3
  p2_to_p3 : Vector3
  p3_to_p1 : Vector3
  normal : Vector3

open Classical in
/-- Source: `Triangle.__init__` (src/lib/vectors.py:161-173): precomputes the edges
and the normal; the normal is the cross product of the first two edges,
normalized in place unless that cross product is the zero vector. -/
noncomputable def Triangle.make (p1 p2 p3 : Vector3) : Triangle :=
  { origin := p1
    p2 := p2
    p3 := p3
    p1_to_p2 := p2.sub p1
    p1_to_p3 := p3.sub p1
    p2_to_p3 := p3.sub p2
    p3_to_p1 := p1.sub p3
    normal :=
      if ((p2.sub p1).cross (p3.sub p1)).is_zero then (p2.sub p1).cross (p3.sub p1)
      else ((p2.sub p1).cross (p3.sub p1)).normalized }

/-- Source: `Triangle.is_parallel` (src/lib/vectors.py:175): `normal.dot(vec) == 0`. -/
def Triangle.is_parallel (t : Triangle) (v : Vector3) : Prop :=
  F.Eqv (t.normal.dot v) (some 0)

/-- Source: `MAX_FLOAT = sys.float_info.max` (src/lib/vectors.py:179), the largest
finite float64, exactly `(2^53 - 1) * 2^971`. -/
def MAX_FLOAT : ℝ := (2 ^ 53 - 1) * 2 ^ 971

/-- Source: `Line` (src/lib/vectors.py:186): a ray with an origin and a direction. -/
structure Line where
  origin : Vector3
  direction : Vector3

/-- Source: `Line.__init__` (src/lib/vectors.py:187-190): the stored direction is
the given direction normalized (the source normalizes it in place). -/
noncomputable def Line.make (origin direction : Vector3) : Line :=
  ⟨origin, direction.normalized⟩

/-- The value `Vector3(0, 0, 0), -1` that `collide` returns on a miss
(src/lib/vectors.py:197,202,214). -/
def missR : Vector3 × F := (vec 0 0 0, some (-1))

/-- Source: `dot = normal.dot(self.direction)` (src/lib/vectors.py:195). -/
def Line.collideDot (l : Line) (tri : Triangle) : F :=
  tri.normal.dot l.direction

/-- Source: `d = (tri.origin - self.origin).dot(normal) / dot`
(src/lib/vectors.py:199). -/
noncomputable def Line.collideD (l : Line) (tri : Triangle) : F :=
  F.div ((tri.origin.sub l.origin).dot tri.normal) (l.collideDot tri)

/-- Source: `intersection_point = self.origin + self.direction * d`
(src/lib/vectors.py:204). -/
noncomputable def Line.collidePoint (l : Line) (tri : Triangle) : Vector3 :=
  l.origin.add (l.direction.smul (l.collideD tri))

/-- Source: `normal.dot(tri.p1_to_p2.cross(C0))` with
`C0 = intersection_point - tri.origin` (src/lib/vectors.py:206-207). -/
noncomputable def Line.check1 (l : Line) (tri : Triangle) : F :=
  tri.normal.dot (tri.p1_to_p2.cross ((l.collidePoint tri).sub tri.origin))

/-- Source: `normal.dot(tri.p2_to_p3.cross(C1))` with
`C1 = intersection_point - tri.p2` (src/lib/vectors.py:208-209). -/
noncomputable def Line.check2 (l : Line) (tri : Triangle) : F :=
  tri.normal.dot (tri.p2_to_p3.cross ((l.collidePoint tri).sub tri.p2))

/-- Source: `normal.dot(tri.p3_to_p1.cross(C2))` with
`C2 = intersection_point - tri.p3` (src/lib/vectors.py:210-211). -/
noncomputable def Line.check3 (l : Line) (tri : Triangle) : F :=
  tri.normal.dot (tri.p3_to_p1.cross ((l.collidePoint tri).sub tri.p3))

open Classical in
/-- Source: `Line.collide` (src/lib/vectors.py:192-214): the single-triangle ray
intersection.  Parallel plane (`dot == 0.0`) or triangle behind the origin
(`d < 0`) misses; otherwise the point hits exactly when the three strict
half-plane checks pass. -/
noncomputable def Line.collide (l : Line) (tri : Triangle) : Vector3 × F :=
  if F.Eqv (l.collideDot tri) (some 0) then missR
  else if F.Lt (l.collideD tri) (some 0) then missR
  else if F.Lt (some 0) (l.check1 tri) then
    if F.Lt (some 0) (l.check2 tri) then
      if F.Lt (some 0) (l.check3 tri) then (l.collidePoint tri, l.collideD tri)
      else missR
    else missR
  else missR

open Classical in
/-- The body of the loop of `collide_triangles` (src/lib/vectors.py:220-227)
acting on the state `(place_at, best_distance)` and the pair returned by the
single-triangle test: `continue` on `distance <= 0`, update the state on
`0 < distance < best_distance`. -/
noncomputable def scanStep (acc : Vector3 × F) (r : Vector3 × F) : Vector3 × F :=
  if F.Le r.2 (some 0) then acc
  else if F.Lt (some 0) r.2 ∧ F.Lt r.2 acc.2 then r
  else acc

/-- Source: `Line.collide_triangles` (src/lib/vectors.py:216-229): scan the
triangles with `best_distance` starting at `MAX_FLOAT` and `place_at`
starting at the all-NaN sentinel, and return the final `place_at`. -/
noncomputable def Line.collide_triangles (l : Line) (triangles : List Triangle) : Vector3 :=
  (triangles.foldl (fun acc tri => scanStep acc (l.collide tri))
    (nanV, some MAX_FLOAT)).1

/-- Source: `d = ((plane.origin - pos).dot(plane.normal)) / plane.normal.dot(direction)`
(src/lib/vectors.py:236). -/
noncomputable def Line.planeD (l : Line) (plane : Plane) : F :=
  F.div ((plane.origin.sub l.origin).dot plane.normal) (plane.normal.dot l.direction)

/-- Source: `point = pos + (direction * d)` (src/lib/vectors.py:238). -/
noncomputable def Line.planePoint (l : Line) (plane : Plane) : Vector3 :=
  l.origin.add (l.direction.smul (l.planeD plane))

open Classical in
/-- Source: `Line.collide_plane` (src/lib/vectors.py:231-241).  The source returns
the pair `point, d` on a hit and the bare `False` otherwise; the miss is
modelled as `none`. -/
noncomputable def Line.collide_plane (l : Line) (plane : Plane) : Option (Vector3 × F) :=
  if ¬ plane.is_parallel l.direction then
    if F.Ge (l.planeD plane) (some 0) then some (l.planePoint plane, l.planeD plane)
    else none
  else none

/-- A hit that the scan of `collide_triangles` can ever record: its distance
is a finite float strictly between `0` and the initial `best_distance`. -/
def Qual (r : Vector3 × F) : Prop :=
  ∃ d, r.2 = some d ∧ 0 < d ∧ d < MAX_FLOAT

/-- The nearest-hit characterization of the scan state after a list of
single-triangle results: either nothing recordable was seen and the state
is still the initial `(NaN sentinel, MAX_FLOAT)`, or the state is the result
at the first index attaining the minimal recordable distance — weakly
minimal among all recordable results, strictly below every earlier one. -/
def Good (rs : List (Vector3 × F)) (s : Vector3 × F) : Prop :=
  ((∀ r ∈ rs, ¬ Qual r) ∧ s = (nanV, some MAX_FLOAT)) ∨
  (∃ i, ∃ h : i < rs.length,
    Qual (rs.get ⟨i, h⟩) ∧ s = rs.get ⟨i, h⟩ ∧
    (∀ j, ∀ hj : j < rs.length, Qual (rs.get ⟨j, hj⟩) →
      F.Le (rs.get ⟨i, h⟩).2 (rs.get ⟨j, hj⟩).2) ∧
    (∀ j, ∀ hj : j < rs.length, j < i → Qual (rs.get ⟨j, hj⟩) →
      F.Lt (rs.get ⟨i, h⟩).2 (rs.get ⟨j, hj⟩).2))

/-! ### Computation lemmas for the float operations -/

@[simp] theorem F.add_some (a b : ℝ) : F.add (some a) (some b) = some (a + b) := rfl

@[simp] theorem F.add_none_left (x : F) : F.add none x = none := by cases x <;> rfl

@[simp] theorem F.add_none_right (x : F) : F.add x none = none := by cases x <;> rfl

@[simp] theorem F.sub_some (a b : ℝ) : F.sub (some a) (some b) = some (a - b) := rfl

@[simp] theorem F.sub_none_left (x : F) : F.sub none x = none := by cases x <;> rfl

@[simp] theorem F.sub_none_right (x : F) : F.sub x none = none := by cases x <;> rfl

@[simp] theorem F.mul_some (a b : ℝ) : F.mul (some a) (some b) = some (a * b) := rfl

@[simp] theorem F.mul_none_left (x : F) : F.mul none x = none := by cases x <;> rfl

@[simp] theorem F.mul_none_right (x : F) : F.mul x none = none := by cases x <;> rfl

@[simp] theorem F.div_some (a b : ℝ) :
    F.div (some a) (some b) = if b = 0 then none else some (a / b) := rfl

@[simp] theorem F.div_none_left (x : F) : F.div none x = none := by cases x <;> rfl

@[simp] theorem F.div_none_right (x : F) : F.div x none = none := by cases x <;> rfl

@[simp] theorem F.sqrt_some (a : ℝ) :
    F.sqrt (some a) = if a < 0 then none else some (Real.sqrt a) := rfl

@[simp] theorem F.sqrt_none : F.sqrt none = none := rfl

@[simp] theorem F.Lt_some_some (a b : ℝ) : F.Lt (some a) (some b) ↔ a < b := Iff.rfl

@[simp] theorem F.not_Lt_none_left (x : F) : ¬ F.Lt none x := by cases x <;> exact id

@[simp] theorem F.not_Lt_none_right (x : F) : ¬ F.Lt x none := by cases x <;> exact id

@[simp] theorem F.Le_some_some (a b : ℝ) : F.Le (some a) (some b) ↔ a ≤ b := Iff.rfl

@[simp] theorem F.not_Le_none_left (x : F) : ¬ F.Le none x := by cases x <;> exact id

@[simp] theorem F.not_Le_none_right (x : F) : ¬ F.Le x none := by cases x <;> exact id

@[simp] theorem F.Ge_some_some (a b : ℝ) : F.Ge (some a) (some b) ↔ b ≤ a := Iff.rfl

@[simp] theorem F.not_Ge_none_left (x : F) : ¬ F.Ge none x := by cases x <;> exact id

@[simp] theorem F.not_Ge_none_right (x : F) : ¬ F.Ge x none := by cases x <;> exact id

@[simp] theorem F.Eqv_some_some (a b : ℝ) : F.Eqv (some a) (some b) ↔ a = b := Iff.rfl

@[simp] theorem F.not_Eqv_none_left (x : F) : ¬ F.Eqv none x := by cases x <;> exact id

@[simp] theorem F.not_Eqv_none_right (x : F) : ¬ F.Eqv x none := by cases x <;> exact id

/-! ### Computation lemmas for vectors with finite components -/

@[simp] theorem vec_x (a b c : ℝ) : (vec a b c).x = some a := rfl

@[simp] theorem vec_y (a b c : ℝ) : (vec a b c).y = some b := rfl

@[simp] theorem vec_z (a b c : ℝ) : (vec a b c).z = some c := rfl

@[simp] theorem nanV_x : nanV.x = none := rfl

@[simp] theorem nanV_y : nanV.y = none := rfl

@[simp] theorem nanV_z : nanV.z = none := rfl

theorem vec_add (a b c d e f : ℝ) :
    (vec a b c).add (vec d e f) = vec (a + d) (b + e) (c + f) := rfl

theorem vec_sub (a b c d e f : ℝ) :
    (vec a b c).sub (vec d e f) = vec (a - d) (b - e) (c - f) := rfl

theorem vec_smul (a b c d : ℝ) :
    (vec a b c).smul (some d) = vec (a * d) (b * d) (c * d) := rfl

theorem vec_dot (a b c d e f : ℝ) :
    (vec a b c).dot (vec d e f) = some (a * d + b * e + c * f) := rfl

theorem vec_cross (a b c d e f : ℝ) :
    (vec a b c).cross (vec d e f) =
      vec (b * f - c * e) (c * d - a * f) (a * e - b * d) := rfl

theorem vec_eq_iff (a b c d e f : ℝ) :
    vec a b c = vec d e f ↔ a = d ∧ b = e ∧ c = f := by
  simp [vec, Vector3.mk.injEq]

/-! ### NaN absorption by the vector operations -/

theorem Vector3.add_nanV (v : Vector3) : v.add nanV = nanV := by
  simp [Vector3.add, nanV]

theorem Vector3.nanV_sub (v : Vector3) : nanV.sub v = nanV := by
  simp [Vector3.sub, nanV]

theorem Vector3.smul_none (v : Vector3) : v.smul none = nanV := by
  simp [Vector3.smul, nanV]

theorem Vector3.cross_nanV (v : Vector3) : v.cross nanV = nanV := by
  simp [Vector3.cross, nanV]

theorem Vector3.dot_nanV (v : Vector3) : v.dot nanV = none := by
  simp [Vector3.dot, nanV]

/-! ### The norm on finite vectors -/

theorem norm_vec (a b c : ℝ) :
    (vec a b c).norm = some (Real.sqrt (a * a + b * b + c * c)) := by
  have h : ¬ (a * a + b * b + c * c < 0) :=
    not_lt.mpr (add_nonneg (add_nonneg (mul_self_nonneg a) (mul_self_nonneg b))
      (mul_self_nonneg c))
  simp [Vector3.norm, vec, h]

theorem normalized_vec (a b c : ℝ) (h : 0 < a * a + b * b + c * c) :
    (vec a b c).normalized =
      vec (a / Real.sqrt (a * a + b * b + c * c))
        (b / Real.sqrt (a * a + b * b + c * c))
        (c / Real.sqrt (a * a + b * b + c * c)) := by
  have hs : Real.sqrt (a * a + b * b + c * c) ≠ 0 := ne_of_gt (Real.sqrt_pos.mpr h)
  unfold Vector3.normalized
  rw [norm_vec]
  simp [vec, hs]

/-- A vector of finite components whose squares sum to `1` is left unchanged
by normalization. -/
theorem unit_normalized (a b c : ℝ) (h : a * a + b * b + c * c = 1) :
    (vec a b c).normalized = vec a b c := by
  rw [normalized_vec a b c (by rw [h]; norm_num), h, Real.sqrt_one]
  simp

/-- C6: `collide_plane` hits exactly when the plane's normal is not
perpendicular to the ray direction and the signed distance `d` is
non-negative, returning `origin + direction * d` with that distance; it
reports no intersection in the parallel case and when `d < 0` (including
the NaN case, where `d >= 0` is false). -/
theorem c6_collide_plane_contract (l : Line) (p : Plane) :
    (¬ p.is_parallel l.direction ∧ F.Ge (l.planeD p) (some 0) →
      l.collide_plane p = some (l.planePoint p, l.planeD p)) ∧
    (p.is_parallel l.direction ∨ ¬ F.Ge (l.planeD p) (some 0) →
      l.collide_plane p = none) := by
  unfold Line.collide_plane
  constructor
  · rintro ⟨h1, h2⟩
    rw [if_pos h1, if_pos h2]
  · rintro (h | h)
    · rw [if_neg (not_not_intro h)]
    · by_cases hp : p.is_parallel l.direction
      · rw [if_neg (not_not_intro hp)]
      · rw [if_pos hp, if_neg h]

/-! ### The collide path under NaN propagation -/

theorem collidePoint_of_d_none (l : Line) (t : Triangle) (hd : l.collideD t = none) :
    l.collidePoint t = nanV := by
  unfold Line.collidePoint
  rw [hd, Vector3.smul_none, Vector3.add_nanV]

theorem check1_of_d_none (l : Line) (t : Triangle) (hd : l.collideD t = none) :
    l.check1 t = none := by
  unfold Line.check1
  rw [collidePoint_of_d_none l t hd, Vector3.nanV_sub, Vector3.cross_nanV, Vector3.dot_nanV]

theorem check2_of_d_none (l : Line) (t : Triangle) (hd : l.collideD t = none) :
    l.check2 t = none := by
  unfold Line.check2
  rw [collidePoint_of_d_none l t hd, Vector3.nanV_sub, Vector3.cross_nanV, Vector3.dot_nanV]

theorem check3_of_d_none (l : Line) (t : Triangle) (hd : l.collideD t = none) :
    l.check3 t = none := by
  unfold Line.check3
  rw [collidePoint_of_d_none l t hd, Vector3.nanV_sub, Vector3.cross_nanV, Vector3.dot_nanV]

/-- When `d` is NaN, every later comparison of `collide` is false and the
miss sentinel is returned. -/
theorem collide_miss_of_d_none (l : Line) (t : Triangle) (hd : l.collideD t = none) :
    l.collide t = missR := by
  have hlt : ¬ F.Lt (l.collideD t) (some 0) := by
    rw [hd]; exact F.not_Lt_none_left _
  have hc1 : ¬ F.Lt (some 0) (l.check1 t) := by
    rw [check1_of_d_none l t hd]; exact F.not_Lt_none_right _
  unfold Line.collide
  by_cases h1 : F.Eqv (l.collideDot t) (some 0)
  · rw [if_pos h1]
  · rw [if_neg h1, if_neg hlt, if_neg hc1]

/-- When the plane-test dot product is NaN, `collide` misses. -/
theorem collide_miss_of_dot_none (l : Line) (t : Triangle)
    (h : l.collideDot t = none) : l.collide t = missR := by
  have hd : l.collideD t = none := by
    unfold Line.collideD
    rw [h, F.div_none_right]
  exact collide_miss_of_d_none l t hd

/-- A dot product against the zero vector is the float `0` or NaN. -/
theorem dot_zeroV_left (w : Vector3) :
    (vec 0 0 0).dot w = some 0 ∨ (vec 0 0 0).dot w = none := by
  unfold Vector3.dot
  cases hx : w.x <;> cases hy : w.y <;> cases hz : w.z <;> simp [vec]

/-- A triangle whose stored normal is the zero vector is never hit. -/
theorem collide_miss_of_normal_zero (l : Line) (t : Triangle)
    (hn : t.normal = vec 0 0 0) : l.collide t = missR := by
  have hdot : l.collideDot t = (vec 0 0 0).dot l.direction := by
    unfold Line.collideDot
    rw [hn]
  rcases dot_zeroV_left l.direction with h | h
  · unfold Line.collide
    rw [if_pos (by rw [hdot, h]; exact rfl)]
  · exact collide_miss_of_dot_none l t (by rw [hdot, h])

/-! ### Claims about the single-triangle test -/

/-- C2 (amended): `collide` either returns the miss sentinel — the zero
vector with distance exactly `-1` — or a hit whose distance is a finite
float that is greater than **or equal to** zero; distance exactly `0` is
possible (the original claim's strict `> 0` fails, see the
counterexample). -/
theorem c2_amended_hit_nonneg (l : Line) (t : Triangle) :
    l.collide t = missR ∨ ∃ d, (l.collide t).2 = some d ∧ 0 ≤ d := by
  unfold Line.collide
  split_ifs with h1 h2 h3 h4 h5
  · exact Or.inl rfl
  · exact Or.inl rfl
  · cases hd : l.collideD t with
    | none =>
        exact absurd h3 (by rw [check1_of_d_none l t hd]; exact F.not_Lt_none_right _)
    | some d =>
        refine Or.inr ⟨d, by simp [hd], ?_⟩
        rw [hd] at h2
        exact not_lt.mp (fun hlt => h2 hlt)
  · exact Or.inl rfl
  · exact Or.inl rfl
  · exact Or.inl rfl

/-- C3: `collide` returns the miss sentinel whenever the triangle's normal
is perpendicular to the ray direction in the float sense (`dot == 0.0`),
and whenever the signed plane distance `d` is negative. -/
theorem c3_parallel_or_behind_miss (l : Line) (t : Triangle)
    (h : F.Eqv (l.collideDot t) (some 0) ∨ F.Lt (l.collideD t) (some 0)) :
    l.collide t = missR := by
  unfold Line.collide
  rcases h with h | h
  · rw [if_pos h]
  · by_cases h1 : F.Eqv (l.collideDot t) (some 0)
    · rw [if_pos h1]
    · rw [if_neg h1, if_pos h]

/-- C4: `collide` reports a hit only when all three strict half-plane
checks are positive, and whenever one of the checks evaluates to exactly
`0` (the plane intersection point on an edge) the miss sentinel is
returned. -/
theorem c4_strict_halfplane (l : Line) (t : Triangle) :
    ((l.collide t).2 ≠ some (-1 : ℝ) →
      F.Lt (some 0) (l.check1 t) ∧ F.Lt (some 0) (l.check2 t) ∧
        F.Lt (some 0) (l.check3 t)) ∧
    ((l.check1 t = some 0 ∨ l.check2 t = some 0 ∨ l.check3 t = some 0) →
      l.collide t = missR) := by
  constructor
  · intro h
    unfold Line.collide at h
    split_ifs at h with h1 h2 h3 h4 h5
    · exact absurd rfl h
    · exact absurd rfl h
    · exact ⟨h3, h4, h5⟩
    · exact absurd rfl h
    · exact absurd rfl h
    · exact absurd rfl h
  · intro h
    unfold Line.collide
    split_ifs with h1 h2 h3 h4 h5 <;> try rfl
    rcases h with h | h | h
    · rw [h] at h3
      exact absurd (F.Lt_some_some 0 0 |>.mp h3) (lt_irrefl 0)
    · rw [h] at h4
      exact absurd (F.Lt_some_some 0 0 |>.mp h4) (lt_irrefl 0)
    · rw [h] at h5
      exact absurd (F.Lt_some_some 0 0 |>.mp h5) (lt_irrefl 0)

/-- C5: a degenerate triangle — the cross product of its first two edges is
the zero vector — keeps that zero vector as its normal (normalization is
skipped), and `collide` then returns the miss sentinel for every ray. -/
theorem c5_degenerate_never_hit (p1 p2 p3 : Vector3)
    (h : (p2.sub p1).cross (p3.sub p1) = vec 0 0 0) :
    (Triangle.make p1 p2 p3).normal = vec 0 0 0 ∧
    ∀ l : Line, l.collide (Triangle.make p1 p2 p3) = missR := by
  have hz : ((p2.sub p1).cross (p3.sub p1)).is_zero := by
    rw [h]
    exact ⟨rfl, rfl, rfl⟩
  have hn : (Triangle.make p1 p2 p3).normal = vec 0 0 0 := by
    simp only [Triangle.make]
    rw [if_pos hz, h]
  exact ⟨hn, fun l => collide_miss_of_normal_zero l _ hn⟩

/-- C10: a `Line` built with the zero vector as direction stores the all-NaN
direction (the in-constructor normalization divides `0` by `0`), every
comparison `collide` makes on the NaN-propagated values is false, and
`collide` returns the miss sentinel for every triangle. -/
theorem c10_zero_direction_nan (o : Vector3) (t : Triangle) :
    (Line.make o (vec 0 0 0)).direction = nanV ∧
    ¬ F.Eqv ((Line.make o (vec 0 0 0)).collideDot t) (some 0) ∧
    ¬ F.Lt ((Line.make o (vec 0 0 0)).collideD t) (some 0) ∧
    ¬ F.Lt (some 0) ((Line.make o (vec 0 0 0)).check1 t) ∧
    ¬ F.Lt (some 0) ((Line.make o (vec 0 0 0)).check2 t) ∧
    ¬ F.Lt (some 0) ((Line.make o (vec 0 0 0)).check3 t) ∧
    (Line.make o (vec 0 0 0)).collide t = missR := by
  have h0 : (vec 0 0 0 : Vector3).norm = some 0 := by
    rw [norm_vec]
    norm_num
  have hdir : (Line.make o (vec 0 0 0)).direction = nanV := by
    show (vec 0 0 0 : Vector3).normalized = nanV
    unfold Vector3.normalized
    rw [h0]
    simp [vec, nanV]
  have hdot : (Line.make o (vec 0 0 0)).collideDot t = none := by
    unfold Line.collideDot
    rw [hdir, Vector3.dot_nanV]
  have hd : (Line.make o (vec 0 0 0)).collideD t = none := by
    unfold Line.collideD
    rw [hdot, F.div_none_right]
  refine ⟨hdir, ?_, ?_, ?_, ?_, ?_, ?_⟩
  · rw [hdot]
    exact F.not_Eqv_none_left _
  · rw [hd]
    exact F.not_Lt_none_left _
  · rw [check1_of_d_none _ _ hd]
    exact F.not_Lt_none_right _
  · rw [check2_of_d_none _ _ hd]
    exact F.not_Lt_none_right _
  · rw [check3_of_d_none _ _ hd]
    exact F.not_Lt_none_right _
  · exact collide_miss_of_d_none _ _ hd

/-! ### Concrete evaluations: the unit right triangle at height `c` and the
vertical ray through `(1/4, 1/4, 0)` -/

theorem make_std_tri (c : ℝ) :
    Triangle.make (vec 0 0 c) (vec 1 0 c) (vec 0 1 c) =
      ⟨vec 0 0 c, vec 1 0 c, vec 0 1 c, vec 1 0 0, vec 0 1 0,
        vec (-1) 1 0, vec 0 (-1) 0, vec 0 0 1⟩ := by
  have e12 : (vec 1 0 c).sub (vec 0 0 c) = vec 1 0 0 := by
    rw [vec_sub]
    norm_num [vec_eq_iff]
  have e13 : (vec 0 1 c).sub (vec 0 0 c) = vec 0 1 0 := by
    rw [vec_sub]
    norm_num [vec_eq_iff]
  have e23 : (vec 0 1 c).sub (vec 1 0 c) = vec (-1) 1 0 := by
    rw [vec_sub]
    norm_num [vec_eq_iff]
  have e31 : (vec 0 0 c).sub (vec 0 1 c) = vec 0 (-1) 0 := by
    rw [vec_sub]
    norm_num [vec_eq_iff]
  have ecross : (vec 1 0 0).cross (vec 0 1 0) = vec 0 0 1 := by
    rw [vec_cross]
    norm_num [vec_eq_iff]
  have hnz : ¬ (vec 0 0 1 : Vector3).is_zero := by
    simp [Vector3.is_zero, vec]
  have hcond : ¬ (((vec 1 0 c).sub (vec 0 0 c)).cross ((vec 0 1 c).sub (vec 0 0 c))).is_zero := by
    rw [e12, e13, ecross]
    exact hnz
  simp only [Triangle.make, e12, e13, e23, e31, ecross]
  rw [if_neg hcond, unit_normalized 0 0 1 (by norm_num)]

theorem make_std_line :
    Line.make (vec (1/4) (1/4) 0) (vec 0 0 1) = ⟨vec (1/4) (1/4) 0, vec 0 0 1⟩ := by
  unfold Line.make
  rw [unit_normalized 0 0 1 (by norm_num)]

theorem collide_std (c : ℝ) (hc : 0 ≤ c) :
    (Line.make (vec (1/4) (1/4) 0) (vec 0 0 1)).collide
        (Triangle.make (vec 0 0 c) (vec 1 0 c) (vec 0 1 c)) =
      (vec (1/4) (1/4) c, some c) := by
  rw [make_std_line, make_std_tri]
  have hc' : ¬ (c < 0) := not_lt.mpr hc
  unfold Line.collide Line.check3 Line.check2 Line.check1 Line.collidePoint
    Line.collideD Line.collideDot
  norm_num [Vector3.dot, Vector3.cross, Vector3.sub, Vector3.add, Vector3.smul,
    vec, hc', vec_eq_iff]

theorem MAX_FLOAT_pos : (0:ℝ) < MAX_FLOAT := by
  unfold MAX_FLOAT
  norm_num

/-- C2 (counterexample): at the unit right triangle in the `z = 0` plane and
the vertical ray whose origin `(1/4, 1/4, 0)` lies strictly inside it,
`collide` returns distance exactly `0` — neither a strictly positive
distance nor the `-1`-with-zero-point miss that the claim allows. -/
theorem c2_counterexample_zero_distance :
    ¬ (F.Lt (some 0) (((Line.make (vec (1/4) (1/4) 0) (vec 0 0 1)).collide
          (Triangle.make (vec 0 0 0) (vec 1 0 0) (vec 0 1 0))).2) ∨
        (((Line.make (vec (1/4) (1/4) 0) (vec 0 0 1)).collide
          (Triangle.make (vec 0 0 0) (vec 1 0 0) (vec 0 1 0))).2 = some (-1) ∧
         ((Line.make (vec (1/4) (1/4) 0) (vec 0 0 1)).collide
          (Triangle.make (vec 0 0 0) (vec 1 0 0) (vec 0 1 0))).1 = vec 0 0 0)) := by
  rw [collide_std 0 le_rfl]
  norm_num [vec_eq_iff]

/-- C1 (counterexample): a triangle hit at distance exactly `MAX_FLOAT`
(positive, and a genuine intersection point exists) is discarded by the scan
because `best_distance` starts at `MAX_FLOAT` and the update needs a
strictly smaller distance, so `collide_triangles` returns the all-NaN
sentinel although a triangle yielded a positive distance. -/
theorem c1_counterexample_max_float_hit_dropped :
    F.Lt (some 0) (((Line.make (vec (1/4) (1/4) 0) (vec 0 0 1)).collide
        (Triangle.make (vec 0 0 MAX_FLOAT) (vec 1 0 MAX_FLOAT) (vec 0 1 MAX_FLOAT))).2) ∧
    ((Line.make (vec (1/4) (1/4) 0) (vec 0 0 1)).collide
        (Triangle.make (vec 0 0 MAX_FLOAT) (vec 1 0 MAX_FLOAT) (vec 0 1 MAX_FLOAT))).1 ≠ nanV ∧
    (Line.make (vec (1/4) (1/4) 0) (vec 0 0 1)).collide_triangles
        [Triangle.make (vec 0 0 MAX_FLOAT) (vec 1 0 MAX_FLOAT) (vec 0 1 MAX_FLOAT)] = nanV := by
  have h := collide_std MAX_FLOAT MAX_FLOAT_pos.le
  refine ⟨?_, ?_, ?_⟩
  · rw [h]
    exact (F.Lt_some_some 0 MAX_FLOAT).mpr MAX_FLOAT_pos
  · rw [h]
    intro hcontra
    exact Option.noConfusion (congrArg Vector3.x hcontra)
  · unfold Line.collide_triangles
    simp only [List.foldl_cons, List.foldl_nil]
    rw [h]
    unfold scanStep
    rw [if_neg (by simp [not_le, MAX_FLOAT_pos]),
      if_neg (by simp [lt_irrefl, not_and])]

/-- C3 (witness): a concrete parallel ray — direction `(1, 0, 0)` against
the triangle with normal `(0, 0, 1)` — satisfies the hypothesis and
misses. -/
theorem c3_witness :
    (F.Eqv ((Line.make (vec 0 0 5) (vec 1 0 0)).collideDot
        (Triangle.make (vec 0 0 0) (vec 1 0 0) (vec 0 1 0))) (some 0) ∨
      F.Lt ((Line.make (vec 0 0 5) (vec 1 0 0)).collideD
        (Triangle.make (vec 0 0 0) (vec 1 0 0) (vec 0 1 0))) (some 0)) ∧
    (Line.make (vec 0 0 5) (vec 1 0 0)).collide
        (Triangle.make (vec 0 0 0) (vec 1 0 0) (vec 0 1 0)) = missR := by
  have hdir : (Line.make (vec 0 0 5) (vec 1 0 0)).direction = vec 1 0 0 := by
    show (vec 1 0 0 : Vector3).normalized = vec 1 0 0
    exact unit_normalized 1 0 0 (by norm_num)
  have hdot : (Line.make (vec 0 0 5) (vec 1 0 0)).collideDot
      (Triangle.make (vec 0 0 0) (vec 1 0 0) (vec 0 1 0)) = some 0 := by
    unfold Line.collideDot
    rw [make_std_tri 0, hdir]
    norm_num [vec_dot]
  have h : F.Eqv ((Line.make (vec 0 0 5) (vec 1 0 0)).collideDot
      (Triangle.make (vec 0 0 0) (vec 1 0 0) (vec 0 1 0))) (some 0) ∨
      F.Lt ((Line.make (vec 0 0 5) (vec 1 0 0)).collideD
        (Triangle.make (vec 0 0 0) (vec 1 0 0) (vec 0 1 0))) (some 0) :=
    Or.inl (by rw [hdot]; exact (F.Eqv_some_some 0 0).mpr rfl)
  exact ⟨h, c3_parallel_or_behind_miss _ _ h⟩

/-- C5 (witness): the fully collapsed triangle with all three vertices at
the origin has zero edge cross product, keeps the zero normal, and is never
hit. -/
theorem c5_witness :
    ((vec 0 0 0).sub (vec 0 0 0)).cross ((vec 0 0 0).sub (vec 0 0 0)) = vec 0 0 0 ∧
    ((Triangle.make (vec 0 0 0) (vec 0 0 0) (vec 0 0 0)).normal = vec 0 0 0 ∧
      ∀ l : Line, l.collide (Triangle.make (vec 0 0 0) (vec 0 0 0) (vec 0 0 0)) = missR) := by
  have h : ((vec 0 0 0).sub (vec 0 0 0)).cross ((vec 0 0 0).sub (vec 0 0 0)) = vec 0 0 0 := by
    rw [vec_sub, vec_cross]
    norm_num [vec_eq_iff]
  exact ⟨h, c5_degenerate_never_hit _ _ _ h⟩

/-! ### The nearest-hit scan -/

theorem scanStep_not_qual (s r : Vector3 × F)
    (hs : ∃ m, s.2 = some m ∧ m ≤ MAX_FLOAT) (hr : ¬ Qual r) :
    scanStep s r = s := by
  obtain ⟨m, hm, hmM⟩ := hs
  unfold scanStep
  cases hr2 : r.2 with
  | none =>
      rw [if_neg (F.not_Le_none_left _),
        if_neg (by rintro ⟨hcon, -⟩; exact F.not_Lt_none_right _ hcon)]
  | some d =>
      by_cases hd : d ≤ 0
      · rw [if_pos ((F.Le_some_some d 0).mpr hd)]
      · have hd0 : 0 < d := not_le.mp hd
        have hdM : ¬ d < MAX_FLOAT := fun hcon => hr ⟨d, hr2, hd0, hcon⟩
        rw [if_neg (fun hcon => hd ((F.Le_some_some d 0).mp hcon)), if_neg ?_]
        rintro ⟨-, hcon⟩
        rw [hm] at hcon
        exact hdM (lt_of_lt_of_le ((F.Lt_some_some d m).mp hcon) hmM)

theorem scanStep_qual_update (s r : Vector3 × F) (hr : Qual r)
    (hlt : F.Lt r.2 s.2) : scanStep s r = r := by
  obtain ⟨d, hd2, hd0, hdM⟩ := hr
  unfold scanStep
  rw [if_neg (by rw [hd2]; exact fun hcon => absurd ((F.Le_some_some d 0).mp hcon) (not_le.mpr hd0)),
    if_pos ⟨by rw [hd2]; exact (F.Lt_some_some 0 d).mpr hd0, hlt⟩]

theorem scanStep_qual_keep (s r : Vector3 × F) (hr : Qual r)
    (hge : ¬ F.Lt r.2 s.2) : scanStep s r = s := by
  obtain ⟨d, hd2, hd0, hdM⟩ := hr
  unfold scanStep
  rw [if_neg (by rw [hd2]; exact fun hcon => absurd ((F.Le_some_some d 0).mp hcon) (not_le.mpr hd0)),
    if_neg (by rintro ⟨-, hcon⟩; exact hge hcon)]

theorem get_concat_last {α : Type} (l : List α) (a : α)
    (h : l.length < (l ++ [a]).length) : (l ++ [a]).get ⟨l.length, h⟩ = a := by
  simp [List.getElem_concat_length]

theorem get_concat_lt {α : Type} (l : List α) (a : α) (i : ℕ) (h : i < l.length)
    (h2 : i < (l ++ [a]).length) : (l ++ [a]).get ⟨i, h2⟩ = l.get ⟨i, h⟩ :=
  List.get_append i h

/-- The loop of `collide_triangles`, run over any list of single-triangle
results from the initial state, ends in a state described by `Good`. -/
theorem scan_good (rs : List (Vector3 × F)) :
    Good rs (rs.foldl scanStep (nanV, some MAX_FLOAT)) := by
  induction rs using List.reverseRecOn with
  | nil => exact Or.inl ⟨by simp, rfl⟩
  | append_singleton xs r ih =>
    rw [List.foldl_append]
    simp only [List.foldl_cons, List.foldl_nil]
    have hlen1 : xs.length < (xs ++ [r]).length := by simp
    rcases ih with ⟨hnone, hseq⟩ | ⟨i, hi, hq, hseq, hmin, hfirst⟩
    · by_cases hqr : Qual r
      · obtain ⟨d, hd2, hd0, hdM⟩ := hqr
        have hstep : scanStep (xs.foldl scanStep (nanV, some MAX_FLOAT)) r = r :=
          scanStep_qual_update _ r ⟨d, hd2, hd0, hdM⟩
            (by rw [hseq, hd2]; exact (F.Lt_some_some d MAX_FLOAT).mpr hdM)
        rw [hstep]
        refine Or.inr ⟨xs.length, hlen1, ?_, ?_, ?_, ?_⟩
        · rw [get_concat_last]
          exact ⟨d, hd2, hd0, hdM⟩
        · rw [get_concat_last]
        · intro j hj hQj
          rcases Nat.lt_succ_iff_lt_or_eq.mp (by simpa using hj) with hjlt | hjeq
          · rw [get_concat_lt xs r j hjlt] at hQj
            exact absurd hQj (hnone _ (xs.get_mem _ _))
          · subst hjeq
            rw [get_concat_last, hd2]
            exact (F.Le_some_some d d).mpr le_rfl
        · intro j hj hjlt hQj
          rw [get_concat_lt xs r j (by simpa using hjlt)] at hQj
          exact absurd hQj (hnone _ (xs.get_mem _ _))
      · have hstep : scanStep (xs.foldl scanStep (nanV, some MAX_FLOAT)) r =
            xs.foldl scanStep (nanV, some MAX_FLOAT) :=
          scanStep_not_qual _ r ⟨MAX_FLOAT, by rw [hseq], le_rfl⟩ hqr
        rw [hstep]
        refine Or.inl ⟨?_, hseq⟩
        intro x hx
        rcases List.mem_append.mp hx with hx | hx
        · exact hnone x hx
        · rw [List.mem_singleton.mp hx]
          exact hqr
    · obtain ⟨di, hdi2, hdi0, hdiM⟩ := hq
      have hsd : (xs.foldl scanStep (nanV, some MAX_FLOAT)).2 = some di := by
        rw [hseq]
        exact hdi2
      by_cases hqr : Qual r
      · obtain ⟨d, hd2, hd0, hdM⟩ := hqr
        by_cases hlt : d < di
        · have hstep : scanStep (xs.foldl scanStep (nanV, some MAX_FLOAT)) r = r :=
            scanStep_qual_update _ r ⟨d, hd2, hd0, hdM⟩
              (by rw [hd2, hsd]; exact (F.Lt_some_some d di).mpr hlt)
          rw [hstep]
          refine Or.inr ⟨xs.length, hlen1, ?_, ?_, ?_, ?_⟩
          · rw [get_concat_last]
            exact ⟨d, hd2, hd0, hdM⟩
          · rw [get_concat_last]
          · intro j hj hQj
            rcases Nat.lt_succ_iff_lt_or_eq.mp (by simpa using hj) with hjlt | hjeq
            · rw [get_concat_lt xs r j hjlt] at hQj ⊢
              obtain ⟨dj, hdj2, hdj0, hdjM⟩ := hQj
              have hle := hmin j hjlt ⟨dj, hdj2, hdj0, hdjM⟩
              rw [hdi2, hdj2] at hle
              rw [get_concat_last, hd2, hdj2]
              exact (F.Le_some_some d dj).mpr
                (le_trans hlt.le ((F.Le_some_some di dj).mp hle))
            · subst hjeq
              rw [get_concat_last, hd2]
              exact (F.Le_some_some d d).mpr le_rfl
          · intro j hj hjlt hQj
            have hjx : j < xs.length := by simpa using hjlt
            rw [get_concat_lt xs r j hjx] at hQj ⊢
            obtain ⟨dj, hdj2, hdj0, hdjM⟩ := hQj
            have hle := hmin j hjx ⟨dj, hdj2, hdj0, hdjM⟩
            rw [hdi2, hdj2] at hle
            rw [get_concat_last, hd2, hdj2]
            exact (F.Lt_some_some d dj).mpr
              (lt_of_lt_of_le hlt ((F.Le_some_some di dj).mp hle))
        · have hstep : scanStep (xs.foldl scanStep (nanV, some MAX_FLOAT)) r =
              xs.foldl scanStep (nanV, some MAX_FLOAT) :=
            scanStep_qual_keep _ r ⟨d, hd2, hd0, hdM⟩
              (by rw [hd2, hsd]; exact fun hcon => hlt ((F.Lt_some_some d di).mp hcon))
          rw [hstep]
          refine Or.inr ⟨i, lt_trans hi hlen1, ?_, ?_, ?_, ?_⟩
          · rw [get_concat_lt xs r i hi]
            exact ⟨di, hdi2, hdi0, hdiM⟩
          · rw [get_concat_lt xs r i hi]
            exact hseq
          · intro j hj hQj
            rcases Nat.lt_succ_iff_lt_or_eq.mp (by simpa using hj) with hjlt | hjeq
            · rw [get_concat_lt xs r j hjlt] at hQj ⊢
              rw [get_concat_lt xs r i hi]
              exact hmin j hjlt hQj
            · subst hjeq
              rw [get_concat_last, get_concat_lt xs r i hi, hdi2, hd2]
              exact (F.Le_some_some di d).mpr (not_lt.mp hlt)
          · intro j hj hjlt hQj
            have hjx : j < xs.length := lt_trans hjlt hi
            rw [get_concat_lt xs r j hjx] at hQj ⊢
            rw [get_concat_lt xs r i hi]
            exact hfirst j hjx hjlt hQj
      · have hstep : scanStep (xs.foldl scanStep (nanV, some MAX_FLOAT)) r =
            xs.foldl scanStep (nanV, some MAX_FLOAT) :=
          scanStep_not_qual _ r ⟨di, hsd, hdiM.le⟩ hqr
        rw [hstep]
        refine Or.inr ⟨i, lt_trans hi hlen1, ?_, ?_, ?_, ?_⟩
        · rw [get_concat_lt xs r i hi]
          exact ⟨di, hdi2, hdi0, hdiM⟩
        · rw [get_concat_lt xs r i hi]
          exact hseq
        · intro j hj hQj
          rcases Nat.lt_succ_iff_lt_or_eq.mp (by simpa using hj) with hjlt | hjeq
          · rw [get_concat_lt xs r j hjlt] at hQj ⊢
            rw [get_concat_lt xs r i hi]
            exact hmin j hjlt hQj
          · subst hjeq
            rw [get_concat_last] at hQj
            exact absurd hQj hqr
        · intro j hj hjlt hQj
          have hjx : j < xs.length := lt_trans hjlt hi
          rw [get_concat_lt xs r j hjx] at hQj ⊢
          rw [get_concat_lt xs r i hi]
          exact hfirst j hjx hjlt hQj

/-- C1 (amended): `collide_triangles` scans in order and keeps the smallest
recordable hit with a strict less-than comparison against a running best
that starts at `MAX_FLOAT`, so only hits with `0 < distance < MAX_FLOAT`
can ever be recorded (a hit at distance `>= MAX_FLOAT` is dropped — the
original claim's "smallest positive distance" fails there, see the
counterexample).  Either no triangle yields such a distance and the all-NaN
sentinel is returned, or the winning intersection point belongs to the
first triangle in scan order attaining the minimal recordable distance:
weakly minimal among all recordable hits and strictly below every earlier
one (ties keep the first). -/
theorem c1_amended_nearest_recordable_hit (l : Line) (ts : List Triangle) :
    ((∀ t ∈ ts, ¬ Qual (l.collide t)) ∧ l.collide_triangles ts = nanV) ∨
    (∃ i, ∃ h : i < ts.length,
      Qual (l.collide (ts.get ⟨i, h⟩)) ∧
      l.collide_triangles ts = (l.collide (ts.get ⟨i, h⟩)).1 ∧
      (∀ j, ∀ hj : j < ts.length, Qual (l.collide (ts.get ⟨j, hj⟩)) →
        F.Le (l.collide (ts.get ⟨i, h⟩)).2 (l.collide (ts.get ⟨j, hj⟩)).2) ∧
      (∀ j, ∀ hj : j < ts.length, j < i → Qual (l.collide (ts.get ⟨j, hj⟩)) →
        F.Lt (l.collide (ts.get ⟨i, h⟩)).2 (l.collide (ts.get ⟨j, hj⟩)).2)) := by
  have hfold : l.collide_triangles ts =
      ((ts.map l.collide).foldl scanStep (nanV, some MAX_FLOAT)).1 := by
    unfold Line.collide_triangles
    rw [List.foldl_map]
  rcases scan_good (ts.map l.collide) with ⟨hnone, hs⟩ | ⟨i, hi, hq, hs, hmin, hfirst⟩
  · refine Or.inl ⟨fun t ht => hnone (l.collide t) (List.mem_map_of_mem _ ht), ?_⟩
    rw [hfold, hs]
  · have hlen : i < ts.length := by simpa using hi
    have hget : (ts.map l.collide).get ⟨i, hi⟩ = l.collide (ts.get ⟨i, hlen⟩) :=
      List.get_map l.collide
    refine Or.inr ⟨i, hlen, ?_, ?_, ?_, ?_⟩
    · rw [← hget]
      exact hq
    · rw [hfold, hs, hget]
    · intro j hj hQj
      have hj2 : j < (ts.map l.collide).length := by simpa using hj
      have hgetj : (ts.map l.collide).get ⟨j, hj2⟩ = l.collide (ts.get ⟨j, hj⟩) :=
        List.get_map l.collide
      rw [← hget, ← hgetj]
      exact hmin j hj2 (by rw [hgetj]; exact hQj)
    · intro j hj hjlt hQj
      have hj2 : j < (ts.map l.collide).length := by simpa using hj
      have hgetj : (ts.map l.collide).get ⟨j, hj2⟩ = l.collide (ts.get ⟨j, hj⟩) :=
        List.get_map l.collide
      rw [← hget, ← hgetj]
      exact hfirst j hj2 hjlt (by rw [hgetj]; exact hQj)

end Vectors
